import Mathlib

/-
  Verification of the data normalization and classification layer of the
  digital wine list application (src/js/main.js).

  The embedding models optional JS string fields as `Option String`, with
  JS truthiness (`undefined` and `""` are falsy) made explicit, and models
  `String.prototype.includes` as an executable substring test.
-/

namespace WineList

/-- JS truthiness of an optional string value: `undefined` and `""` are falsy. -/
def truthy : Option String → Bool
  | none => false
  | some s => !(s == "")

/-- Substring test modelling `String.prototype.includes`. -/
def containsSubstr (s pat : String) : Bool :=
  (List.range (s.toList.length + 1)).any fun i => pat.toList.isPrefixOf (s.toList.drop i)

/-- ASCII uppercasing, modelling `String.prototype.toUpperCase` on the ASCII data at hand. -/
def jsToUpper (s : String) : String :=
  String.mk (s.toList.map Char.toUpper)

/-- ASCII lowercasing, modelling `String.prototype.toLowerCase` on the ASCII data at hand. -/
def jsToLower (s : String) : String :=
  String.mk (s.toList.map Char.toLower)

/-- Whitespace trim at both ends, modelling `String.prototype.trim`. -/
def jsTrim (s : String) : String :=
  String.mk (((s.toList.dropWhile Char.isWhitespace).reverse.dropWhile Char.isWhitespace).reverse)

/-- A raw wine record as loaded from `data/wines.json` (fields optional). -/
structure Wine where
  wine_name : Option String := none
  wine_producer : Option String := none
  wine_type : Option String := none
  region : Option String := none
  vintage : Option String := none
  wine_price : Option String := none
  wine_price_bottle : Option String := none
  wine_price_glass : Option String := none
  varietals : Option String := none
deriving DecidableEq

/-- The fixed list of accepted raw region strings, from `loadWineData` (main.js lines 37-43). -/
def validRegions : List String :=
  ["SICILIA", "PIEMONTE", "TOSCANA", "VENETO", "LOMBARDIA", "EMILIA-ROMAGNA",
   "LAZIO", "CAMPANIA", "PUGLIA", "CALABRIA", "BASILICATA", "MOLISE",
   "ABRUZZO", "UMBRIA", "LE MARCHE", "FRIULI-VENEZIA GIULIA", "FRIULI", "TRENTINO ALTO-ADIGE",
   "VALLE D\u0027AOSTA", "LIGURIA", "SARDEGNA", "TOSCANA (BOLGHERI)", "LUGANA DOC (VENETO)",
   "TARANTO IGT (PUGLIA)", "MATERA DOC (BASILICATA)"]

/-- `hasValidRegion` from the `loadWineData` filter: `wine.region && validRegions.includes(wine.region)`. -/
def hasValidRegion (w : Wine) : Bool :=
  truthy w.region && validRegions.contains (w.region.getD "")

/-- `hasValidName` from the `loadWineData` filter. -/
def hasValidName (w : Wine) : Bool :=
  truthy w.wine_name && !(w.wine_name.getD "" == "WINE NAME") &&
    !(w.wine_name.getD "" == "WINE PRICE") && !(w.wine_name.getD "" == "VINTAGE")

/-- `hasValidProducer` from the `loadWineData` filter. -/
def hasValidProducer (w : Wine) : Bool :=
  truthy w.wine_producer && !(w.wine_producer.getD "" == "UNKNOWN PRODUCER")

/-- `hasValidPrice` from the `loadWineData` filter: some price field truthy and not `"0"`. -/
def hasValidPrice (w : Wine) : Bool :=
  (truthy w.wine_price && !(w.wine_price.getD "" == "0")) ||
  (truthy w.wine_price_bottle && !(w.wine_price_bottle.getD "" == "0")) ||
  (truthy w.wine_price_glass && !(w.wine_price_glass.getD "" == "0"))

/-- `isNotSangriaOrCocktail` from the `loadWineData` filter: the type must be truthy
and contain neither SANGRIA nor COCKTAIL (uppercased). -/
def isNotSangriaOrCocktail (w : Wine) : Bool :=
  truthy w.wine_type &&
    !(containsSubstr (jsToUpper (w.wine_type.getD "")) "SANGRIA") &&
    !(containsSubstr (jsToUpper (w.wine_type.getD "")) "COCKTAIL")

/-- The per-record predicate of the `loadWineData` validity filter (main.js lines 45-60). -/
def validWine (w : Wine) : Bool :=
  hasValidRegion w && hasValidName w && hasValidProducer w && hasValidPrice w &&
    isNotSangriaOrCocktail w

/-- The validity filter applied in `loadWineData`: keep exactly the valid records, in order. -/
def validityFilter (ws : List Wine) : List Wine :=
  ws.filter validWine

/-- The fixed region synonym table of `normalizeRegionName` (main.js lines 1508-1541). -/
def regionMap : List (String × String) :=
  [("FRIULI-VENEZIA GIULIA", "FRIULI-VENEZIA GIULIA"),
   ("FRIULI VENEZIA GIULIA", "FRIULI-VENEZIA GIULIA"),
   ("FRIULI VENEZIA", "FRIULI-VENEZIA GIULIA"),
   ("FRIULI", "FRIULI-VENEZIA GIULIA"),
   ("LE MARCHE", "LE MARCHE"),
   ("MARCHE", "LE MARCHE"),
   ("TRENTINO ALTO-ADIGE", "TRENTINO ALTO-ADIGE"),
   ("TRENTINO", "TRENTINO ALTO-ADIGE"),
   ("ALTO ADIGE", "TRENTINO ALTO-ADIGE"),
   ("VALLE D\u0027AOSTA", "VALLE D\u0027AOSTA"),
   ("AOSTA", "VALLE D\u0027AOSTA"),
   ("TOSCANA", "TOSCANA"),
   ("TOSCANA (BOLGHERI)", "TOSCANA"),
   ("SICILIA", "SICILIA"),
   ("PIEMONTE", "PIEMONTE"),
   ("VENETO", "VENETO"),
   ("LUGANA DOC (VENETO)", "VENETO"),
   ("LOMBARDIA", "LOMBARDIA"),
   ("EMILIA-ROMAGNA", "EMILIA-ROMAGNA"),
   ("LAZIO", "LAZIO"),
   ("CAMPANIA", "CAMPANIA"),
   ("PUGLIA", "PUGLIA"),
   ("TARANTO IGT (PUGLIA)", "PUGLIA"),
   ("CALABRIA", "CALABRIA"),
   ("BASILICATA", "BASILICATA"),
   ("MATERA DOC (BASILICATA)", "BASILICATA"),
   ("MOLISE", "MOLISE"),
   ("ABRUZZO", "ABRUZZO"),
   ("UMBRIA", "UMBRIA"),
   ("SARDEGNA", "SARDEGNA"),
   ("LIGURIA", "LIGURIA")]

/-- First-match association lookup, modelling JS object property access on the literal table. -/
def lookupFirst : List (String × String) → String → Option String
  | [], _ => none
  | (k, v) :: rest, x => if x == k then some v else lookupFirst rest x

/-- `normalizeRegionName` (main.js lines 1505-1544): guard falsy input to `""`,
then `regionMap[regionName] || regionName`. -/
def normalizeRegionName (regionName : String) : String :=
  if regionName == "" then ""
  else
    match lookupFirst regionMap regionName with
    | some v => v
    | none => regionName

/-- `getWineFamily` (main.js lines 1389-1423): ordered substring classification of the
free-text wine type into one of six families, defaulting to ROSSO. -/
def getWineFamily (wineType : Option String) : String :=
  match wineType with
  | none => "ROSSO"
  | some s =>
    if s == "" then "ROSSO"
    else
      let t := jsToUpper s
      if containsSubstr t "BOLLICINE" then "BOLLICINE"
      else if containsSubstr t "NON ALCOLICO" || containsSubstr t "NON-ALCOHOLIC" ||
          containsSubstr t "0.0" then "NON ALCOLICO"
      else if containsSubstr t "ROSATO" then "ROSATO"
      else if containsSubstr t "ARANCIONE" then "ARANCIONE"
      else if containsSubstr t "BIANCO" then "BIANCO"
      else if containsSubstr t "ROSSO" || containsSubstr t "AMARONE" ||
          containsSubstr t "BAROLO" || containsSubstr t "SUPERTUSCAN" ||
          containsSubstr t "SUPERIORE" || containsSubstr t "RIPASSO" then "ROSSO"
      else "ROSSO"

/-- `wineMatchesFamily` (main.js lines 1425-1428). -/
def wineMatchesFamily (w : Wine) (targetFamily : String) : Bool :=
  getWineFamily w.wine_type == targetFamily

/-- The current filter state (`this.currentFilters`): optional type, optional region,
lowercase search string (initially `""`). -/
structure Filters where
  type : Option String := none
  region : Option String := none
  search : String := ""
deriving DecidableEq

/-- `applyFilters` (main.js lines 997-1010): type via `wineMatchesFamily`, region by RAW
string equality, search as case-insensitive substring of name, region, or varietals. -/
def applyFilters (wines : List Wine) (f : Filters) : List Wine :=
  wines.filter fun w =>
    (!truthy f.type || wineMatchesFamily w (f.type.getD "")) &&
    (!truthy f.region || w.region == f.region) &&
    (f.search == "" ||
      containsSubstr (jsToLower (w.wine_name.getD "")) f.search ||
      containsSubstr (jsToLower (w.region.getD "")) f.search ||
      (truthy w.varietals && containsSubstr (jsToLower (w.varietals.getD "")) f.search))

/-- The wine filter of `renderWinesPage` (main.js lines 419-429): NORMALIZED region
equality against the URL region, plus the optional type criterion. -/
def renderWinesFilter (wines : List Wine) (ftype : Option String) (region : String) : List Wine :=
  wines.filter fun w =>
    (normalizeRegionName (w.region.getD "") == normalizeRegionName region) &&
    (!truthy ftype || wineMatchesFamily w (ftype.getD ""))

/-- The wine count shown on a region card by `filterRegions` (main.js lines 297-312):
normalized region equality, and the family criterion exactly when a type filter is active. -/
def regionCardCount (wines : List Wine) (ftype : Option String) (region : String) : Nat :=
  if truthy ftype then
    (wines.filter fun w =>
      (normalizeRegionName (w.region.getD "") == normalizeRegionName region) &&
        wineMatchesFamily w (ftype.getD "")).length
  else
    (wines.filter fun w =>
      normalizeRegionName (w.region.getD "") == normalizeRegionName region).length

/-- `winesToUse` in `renderRegionsPage` (main.js lines 221-224): the wine set,
restricted by family when a type filter is active. -/
def winesForType (wines : List Wine) (ftype : Option String) : List Wine :=
  if truthy ftype then wines.filter (fun w => wineMatchesFamily w (ftype.getD "")) else wines

/-- Executable lexicographic comparison of character lists by code point, modelling the
default string comparison of `Array.prototype.sort`. -/
def charListLe : List Char → List Char → Bool
  | [], _ => true
  | _ :: _, [] => false
  | a :: as, b :: bs => if a.toNat = b.toNat then charListLe as bs else decide (a.toNat < b.toNat)

/-- Lexicographic string comparison by code point. -/
def strLe (a b : String) : Bool :=
  charListLe a.toList b.toList

/-- Helper of `dedupFirst`: keep the elements not seen yet, in order. -/
def dedupFirstAux : List String → List String → List String
  | [], _ => []
  | x :: xs, seen =>
    if seen.contains x then dedupFirstAux xs seen else x :: dedupFirstAux xs (x :: seen)

/-- Insertion-order de-duplication, modelling the JS `Set` built from a list. -/
def dedupFirst (l : List String) : List String :=
  dedupFirstAux l []

/-- The region list built by `renderRegionsPage` (main.js lines 226-235): the distinct
NORMALIZED regions of the (type-restricted) wines with a non-blank region field, sorted. -/
def regionsPageList (wines : List Wine) (ftype : Option String) : List String :=
  List.insertionSort (fun a b => strLe a b = true)
    (dedupFirst (((winesForType wines ftype).filter fun w =>
      truthy w.region && !(jsTrim (w.region.getD "") == "")).map
        fun w => normalizeRegionName (w.region.getD "")))

/-- The region list built by `showRegionFilter` (main.js lines 1096-1102): the distinct
RAW region strings of the wines with a non-blank region field, sorted. -/
def showRegionFilterRegions (wines : List Wine) : List String :=
  List.insertionSort (fun a b => strLe a b = true)
    (dedupFirst ((wines.filter fun w =>
      truthy w.region && !(jsTrim (w.region.getD "") == "")).map fun w => w.region.getD ""))

/-- JS regex word character class `\w`: ASCII letters, digits and underscore. -/
def isWordChar (c : Char) : Bool :=
  c.isAlphanum || c == '_'

/-- Whether the regex `\b(19|20)\d\d\b` of `extractYear` matches the character list `l`
at position `i`: a word boundary before, `19` or `20`, two digits, a word boundary after. -/
def yearAt (l : List Char) (i : Nat) : Bool :=
  (decide (i = 0) || !isWordChar (l.getD (i - 1) ' ')) &&
    match l.drop i with
    | c1 :: c2 :: c3 :: c4 :: rest =>
      ((c1 == '1' && c2 == '9') || (c1 == '2' && c2 == '0')) && c3.isDigit && c4.isDigit &&
        (match rest with
         | [] => true
         | c5 :: _ => !isWordChar c5)
    | _ => false

/-- `extractYear` (main.js lines 1773-1777): the leftmost match of `\b(19|20)\d\d\b`
in the vintage text, or the sentinel `"N/A"` when the field is falsy or nothing matches. -/
def extractYear (vintage : Option String) : String :=
  match vintage with
  | none => "N/A"
  | some v =>
    if v == "" then "N/A"
    else
      match (List.range v.toList.length).find? (fun i => yearAt v.toList i) with
      | some i => String.mk ((v.toList.drop i).take 4)
      | none => "N/A"

/-! Helper lemmas about the region normalizer. -/

theorem lookupFirst_mem :
    ∀ (l : List (String × String)) (x v : String), lookupFirst l x = some v → (x, v) ∈ l := by
  intro l
  induction l with
  | nil => intro x v h; simp [lookupFirst] at h
  | cons p rest ih =>
    intro x v h
    obtain ⟨k, w⟩ := p
    simp only [lookupFirst] at h
    by_cases hx : (x == k) = true
    · rw [if_pos hx] at h
      have hkv : w = v := by injection h
      have hxk : x = k := by
        have := eq_of_beq hx
        exact this
      subst hkv; subst hxk
      exact List.mem_cons_self _ _
    · rw [if_neg hx] at h
      exact List.mem_cons_of_mem _ (ih x v h)

theorem regionMap_values_fixed :
    regionMap.all (fun kv => !(kv.2 == "") && (normalizeRegionName kv.2 == kv.2)) = true := by
  decide

theorem normalizeRegionName_eq_of_lookup (x v : String)
    (h : lookupFirst regionMap x = some v) : normalizeRegionName x = v := by
  have hx : ¬((x == "") = true) := by
    intro hx
    have : x = "" := eq_of_beq hx
    subst this
    rw [show lookupFirst regionMap "" = none from by decide] at h
    exact Option.noConfusion h
  unfold normalizeRegionName
  rw [if_neg hx, h]

theorem normalizeRegionName_eq_of_lookup_none (x : String)
    (h : lookupFirst regionMap x = none) : normalizeRegionName x = x := by
  by_cases hx : (x == "") = true
  · have : x = "" := eq_of_beq hx
    subst this; rfl
  · unfold normalizeRegionName
    rw [if_neg hx, h]

theorem normalizeRegionName_idem (x : String) :
    normalizeRegionName (normalizeRegionName x) = normalizeRegionName x := by
  cases hl : lookupFirst regionMap x with
  | none =>
    have h1 : normalizeRegionName x = x := normalizeRegionName_eq_of_lookup_none x hl
    rw [h1, h1]
  | some v =>
    have h1 : normalizeRegionName x = v := normalizeRegionName_eq_of_lookup x v hl
    rw [h1]
    have hmem := lookupFirst_mem regionMap x v hl
    have hall := regionMap_values_fixed
    rw [List.all_eq_true] at hall
    have hv := hall (x, v) hmem
    simp only [Bool.and_eq_true, beq_iff_eq] at hv
    exact hv.2

/-- C8: the region normalizer is idempotent: normalizing an already-normalized
region string leaves it unchanged. -/
theorem C8_normalizeRegionName_idempotent :
    ∀ x : String, normalizeRegionName (normalizeRegionName x) = normalizeRegionName x :=
  normalizeRegionName_idem

/-- C4: the region normalizer returns the canonical value on every key of the fixed
many-to-one table and returns the input unchanged on every non-key, and it collapses
the FRIULI synonym set to the canonical spelling. -/
theorem C4_normalizeRegionName_table :
    (∀ kv : String × String, kv ∈ regionMap → normalizeRegionName kv.1 = kv.2) ∧
    (∀ x : String, lookupFirst regionMap x = none → normalizeRegionName x = x) ∧
    normalizeRegionName "FRIULI" = "FRIULI-VENEZIA GIULIA" ∧
    normalizeRegionName "FRIULI VENEZIA GIULIA" = "FRIULI-VENEZIA GIULIA" ∧
    normalizeRegionName "FRIULI-VENEZIA GIULIA" = "FRIULI-VENEZIA GIULIA" := by
  refine ⟨?_, ?_, by decide, by decide, by decide⟩
  · intro kv hmem
    have hkeys : regionMap.all (fun kv => normalizeRegionName kv.1 == kv.2) = true := by decide
    rw [List.all_eq_true] at hkeys
    have := hkeys kv hmem
    exact eq_of_beq this
  · intro x h
    exact normalizeRegionName_eq_of_lookup_none x h

/-- Witness for C4 at concrete inputs: the key MARCHE maps to its canonical value and a
non-key passes through unchanged. -/
theorem C4_witness :
    normalizeRegionName "MARCHE" = "LE MARCHE" ∧ normalizeRegionName "XYZ" = "XYZ" :=
  ⟨C4_normalizeRegionName_table.1 ("MARCHE", "LE MARCHE") (by decide),
   C4_normalizeRegionName_table.2.1 "XYZ" (by decide)⟩

/-- C3: the family classifier is total into the six families, returns ROSSO on absent or
empty input, tests the trigger substrings of the uppercased input in the documented
priority order returning on the first match, falls back to ROSSO when nothing matches,
and in particular classifies BOLLICINE ROSSO as BOLLICINE. -/
theorem C3_getWineFamily_priority :
    (∀ t : Option String,
      getWineFamily t ∈ ["ROSSO", "BIANCO", "ROSATO", "ARANCIONE", "BOLLICINE", "NON ALCOLICO"]) ∧
    getWineFamily none = "ROSSO" ∧
    getWineFamily (some "") = "ROSSO" ∧
    (∀ s : String, containsSubstr (jsToUpper s) "BOLLICINE" = true →
      getWineFamily (some s) = "BOLLICINE") ∧
    (∀ s : String, containsSubstr (jsToUpper s) "BOLLICINE" = false →
      (containsSubstr (jsToUpper s) "NON ALCOLICO" || containsSubstr (jsToUpper s) "NON-ALCOHOLIC" ||
        containsSubstr (jsToUpper s) "0.0") = true →
      getWineFamily (some s) = "NON ALCOLICO") ∧
    (∀ s : String, containsSubstr (jsToUpper s) "BOLLICINE" = false →
      (containsSubstr (jsToUpper s) "NON ALCOLICO" || containsSubstr (jsToUpper s) "NON-ALCOHOLIC" ||
        containsSubstr (jsToUpper s) "0.0") = false →
      containsSubstr (jsToUpper s) "ROSATO" = true →
      getWineFamily (some s) = "ROSATO") ∧
    (∀ s : String, containsSubstr (jsToUpper s) "BOLLICINE" = false →
      (containsSubstr (jsToUpper s) "NON ALCOLICO" || containsSubstr (jsToUpper s) "NON-ALCOHOLIC" ||
        containsSubstr (jsToUpper s) "0.0") = false →
      containsSubstr (jsToUpper s) "ROSATO" = false →
      containsSubstr (jsToUpper s) "ARANCIONE" = true →
      getWineFamily (some s) = "ARANCIONE") ∧
    (∀ s : String, containsSubstr (jsToUpper s) "BOLLICINE" = false →
      (containsSubstr (jsToUpper s) "NON ALCOLICO" || containsSubstr (jsToUpper s) "NON-ALCOHOLIC" ||
        containsSubstr (jsToUpper s) "0.0") = false →
      containsSubstr (jsToUpper s) "ROSATO" = false →
      containsSubstr (jsToUpper s) "ARANCIONE" = false →
      containsSubstr (jsToUpper s) "BIANCO" = true →
      getWineFamily (some s) = "BIANCO") ∧
    (∀ s : String, getWineFamily (some s) = "ROSSO" ∨ getWineFamily (some s) = "BIANCO" ∨
      getWineFamily (some s) = "ROSATO" ∨ getWineFamily (some s) = "ARANCIONE" ∨
      getWineFamily (some s) = "BOLLICINE" ∨ getWineFamily (some s) = "NON ALCOLICO") ∧
    (∀ s : String, containsSubstr (jsToUpper s) "BOLLICINE" = false →
      (containsSubstr (jsToUpper s) "NON ALCOLICO" || containsSubstr (jsToUpper s) "NON-ALCOHOLIC" ||
        containsSubstr (jsToUpper s) "0.0") = false →
      containsSubstr (jsToUpper s) "ROSATO" = false →
      containsSubstr (jsToUpper s) "ARANCIONE" = false →
      containsSubstr (jsToUpper s) "BIANCO" = false →
      getWineFamily (some s) = "ROSSO") ∧
    getWineFamily (some "BOLLICINE ROSSO") = "BOLLICINE" := by
  constructor
  · intro t
    cases t with
    | none => simp [getWineFamily]
    | some s =>
      simp only [getWineFamily]
      split
      · simp
      · split
        · simp
        · split
          · simp
          · split
            · simp
            · split
              · simp
              · split
                · simp
                · split <;> simp
  refine ⟨rfl, rfl, ?_, ?_, ?_, ?_, ?_, ?_, ?_, by decide⟩
  · intro s h1
    have hs : (s == "") = false := by
      cases he : s == "" with
      | false => rfl
      | true =>
        exfalso
        have : s = "" := eq_of_beq he
        subst this
        exact absurd h1 (by decide)
    simp [getWineFamily, hs, h1]
  · intro s h1 h2
    have hs : (s == "") = false := by
      cases he : s == "" with
      | false => rfl
      | true =>
        exfalso
        have : s = "" := eq_of_beq he
        subst this
        exact absurd h2 (by decide)
    simp [getWineFamily, hs, h1, h2]
  · intro s h1 h2 h3
    have hs : (s == "") = false := by
      cases he : s == "" with
      | false => rfl
      | true =>
        exfalso
        have : s = "" := eq_of_beq he
        subst this
        exact absurd h3 (by decide)
    simp [getWineFamily, hs, h1, h2, h3]
  · intro s h1 h2 h3 h4
    have hs : (s == "") = false := by
      cases he : s == "" with
      | false => rfl
      | true =>
        exfalso
        have : s = "" := eq_of_beq he
        subst this
        exact absurd h4 (by decide)
    simp [getWineFamily, hs, h1, h2, h3, h4]
  · intro s h1 h2 h3 h4 h5
    have hs : (s == "") = false := by
      cases he : s == "" with
      | false => rfl
      | true =>
        exfalso
        have : s = "" := eq_of_beq he
        subst this
        exact absurd h5 (by decide)
    simp [getWineFamily, hs, h1, h2, h3, h4, h5]
  · intro s
    simp only [getWineFamily]
    split
    · exact Or.inl rfl
    · split
      · exact Or.inr (Or.inr (Or.inr (Or.inr (Or.inl rfl))))
      · split
        · exact Or.inr (Or.inr (Or.inr (Or.inr (Or.inr rfl))))
        · split
          · exact Or.inr (Or.inr (Or.inl rfl))
          · split
            · exact Or.inr (Or.inr (Or.inr (Or.inl rfl)))
            · split
              · exact Or.inr (Or.inl rfl)
              · split
                · exact Or.inl rfl
                · exact Or.inl rfl
  · intro s h1 h2 h3 h4 h5
    by_cases hs : (s == "") = true
    · have : s = "" := eq_of_beq hs
      subst this
      rfl
    · have hs' : (s == "") = false := by
        cases he : s == "" with
        | false => rfl
        | true => exact absurd he hs
      simp only [getWineFamily, hs', Bool.false_eq_true, if_false, h1, h2, h3, h4, h5]
      split <;> rfl

/-- Witness for C3 at a concrete input: a type string containing BOLLICINE after another
word is still classified BOLLICINE by the priority order. -/
theorem C3_witness : getWineFamily (some "SPUMANTE BOLLICINE") = "BOLLICINE" :=
  C3_getWineFamily_priority.2.2.2.1 "SPUMANTE BOLLICINE" (by decide)

/-- A record satisfying every clause of C2 as stated: valid name, producer and price, a
region whose NORMALIZATION is canonical, and a non-SANGRIA, non-COCKTAIL type. Its raw
region spelling, however, is the unhyphenated FRIULI VENEZIA GIULIA. -/
def friuliVariantWine : Wine :=
  { wine_name := some "Colli Orientali", wine_producer := some "Livio Felluga",
    wine_type := some "ROSSO", region := some "FRIULI VENEZIA GIULIA",
    wine_price := some "85" }

/-- C2 is refuted at `friuliVariantWine`: every clause of the claim holds — in particular
the normalized region is a member of the fixed region list — yet the validity filter
drops the record, because the code tests the RAW region string against the list. -/
theorem C2_counterexample :
    validityFilter [friuliVariantWine] = [] ∧
    normalizeRegionName (friuliVariantWine.region.getD "") = "FRIULI-VENEZIA GIULIA" ∧
    validRegions.contains (normalizeRegionName (friuliVariantWine.region.getD "")) = true ∧
    hasValidName friuliVariantWine = true ∧
    hasValidProducer friuliVariantWine = true ∧
    hasValidPrice friuliVariantWine = true ∧
    isNotSangriaOrCocktail friuliVariantWine = true := by
  decide

/-- C2 amended: the validity filter retains a record iff the name, producer and price
clauses hold, the RAW region string (not its normalization) is a member of the fixed
`validRegions` list, and the wine type is present, non-empty and contains neither
SANGRIA nor COCKTAIL case-insensitively. -/
theorem C2_amended_validityFilter_iff :
    ∀ r : Wine, validityFilter [r] ≠ [] ↔
      (truthy r.region = true ∧ validRegions.contains (r.region.getD "") = true ∧
       truthy r.wine_name = true ∧ r.wine_name.getD "" ≠ "WINE NAME" ∧
       r.wine_name.getD "" ≠ "WINE PRICE" ∧ r.wine_name.getD "" ≠ "VINTAGE" ∧
       truthy r.wine_producer = true ∧ r.wine_producer.getD "" ≠ "UNKNOWN PRODUCER" ∧
       ((truthy r.wine_price = true ∧ r.wine_price.getD "" ≠ "0") ∨
        (truthy r.wine_price_bottle = true ∧ r.wine_price_bottle.getD "" ≠ "0") ∨
        (truthy r.wine_price_glass = true ∧ r.wine_price_glass.getD "" ≠ "0")) ∧
       truthy r.wine_type = true ∧
       containsSubstr (jsToUpper (r.wine_type.getD "")) "SANGRIA" = false ∧
       containsSubstr (jsToUpper (r.wine_type.getD "")) "COCKTAIL" = false) := by
  intro r
  have hfilter : validityFilter [r] ≠ [] ↔ validWine r = true := by
    simp only [validityFilter, List.filter, List.filter_nil]
    cases h : validWine r with
    | true => simp
    | false => simp
  rw [hfilter]
  simp only [validWine, hasValidRegion, hasValidName, hasValidProducer, hasValidPrice,
    isNotSangriaOrCocktail, Bool.and_eq_true, Bool.or_eq_true, Bool.not_eq_true',
    beq_eq_false_iff_ne, ne_eq]
  tauto

/-- A fully valid record used as witness input. -/
def baroloRiservaWine : Wine :=
  { wine_name := some "Barolo Riserva", wine_producer := some "Produttore",
    wine_type := some "ROSSO SUPERIORE", region := some "PIEMONTE",
    wine_price := some "85" }

/-- An otherwise fully valid record with no wine type field. -/
def noTypeWine : Wine :=
  { wine_name := some "Barolo Riserva", wine_producer := some "Produttore",
    region := some "PIEMONTE", wine_price := some "85" }

/-- Witness for C2 amended: a fully valid record is retained, so the filter output is
non-empty at it. -/
theorem C2_witness :
    validityFilter [baroloRiservaWine] ≠ [] :=
  (C2_amended_validityFilter_iff _).mpr (by refine ⟨by decide, by decide, by decide,
    by decide, by decide, by decide, by decide, by decide, Or.inl ⟨by decide, by decide⟩,
    by decide, by decide, by decide⟩)

/-- C10: a record whose wine type field is absent or the empty string is dropped by the
validity filter, regardless of every other field. -/
theorem C10_missing_type_dropped :
    ∀ r : Wine, (r.wine_type = none ∨ r.wine_type = some "") → validityFilter [r] = [] := by
  intro r h
  have ht : truthy r.wine_type = false := by
    rcases h with h | h <;> rw [h] <;> rfl
  have hns : isNotSangriaOrCocktail r = false := by
    simp [isNotSangriaOrCocktail, ht]
  have hv : validWine r = false := by
    simp [validWine, hns]
  simp [validityFilter, List.filter, hv]

/-- Witness for C10: an otherwise fully valid record with no wine type is dropped. -/
theorem C10_witness :
    validityFilter [noTypeWine] = [] :=
  C10_missing_type_dropped noTypeWine (Or.inl rfl)

/-- A ValidWine whose raw region is the FRIULI short spelling: it passes the validity
filter since FRIULI is in the accepted raw-region list. -/
def friuliRawWine : Wine :=
  { wine_name := some "Vigneto", wine_producer := some "Produttore",
    wine_type := some "ROSSO", region := some "FRIULI", wine_price := some "50" }

/-- The filter spec selecting the canonical region FRIULI-VENEZIA GIULIA, as the wines
page URL produced by a region card would set it. -/
def friuliCanonicalFilter : Filters :=
  { region := some "FRIULI-VENEZIA GIULIA" }

/-- C1: evaluation at the failing input. `friuliRawWine` is a ValidWine and its
normalized region equals the normalized spec region, so the claimed matching rule
retains it; but `applyFilters` compares the two region strings RAW and drops it. -/
theorem C1_applyFilters_raw_region_eval :
    validityFilter [friuliRawWine] = [friuliRawWine] ∧
    normalizeRegionName (friuliRawWine.region.getD "") =
      normalizeRegionName (friuliCanonicalFilter.region.getD "") ∧
    applyFilters [friuliRawWine] friuliCanonicalFilter = [] := by
  decide

/-- C6: the query engine is a pure filter: its output is always a subsequence of its
input list, so it adds, duplicates and reorders nothing. -/
theorem C6_applyFilters_sublist :
    ∀ (wines : List Wine) (f : Filters), List.Sublist (applyFilters wines f) wines := by
  intro wines f
  exact List.filter_sublist wines

/-- C5: the wine count shown on a region card (with any active family filter) equals
the length of the wine listing reached from that card, both being computed by the same
normalized-region and family predicate. -/
theorem C5_regionCardCount_eq_listing :
    ∀ (wines : List Wine) (ftype : Option String) (region : String),
      regionCardCount wines ftype region =
        (renderWinesFilter wines ftype (normalizeRegionName region)).length := by
  intro wines ftype region
  unfold regionCardCount renderWinesFilter
  rw [normalizeRegionName_idem region]
  cases h : truthy ftype with
  | true => simp [h]
  | false => simp [h]

/-! Helper lemmas about `extractYear`: the leftmost regex match as a `find?` over
positions. -/

theorem find?_range'_eq_some (p : Nat → Bool) :
    ∀ (n s i : Nat), s ≤ i → i < s + n → p i = true →
      (∀ j, s ≤ j → j < i → p j = false) → (List.range' s n).find? p = some i := by
  intro n
  induction n with
  | zero =>
    intro s i hsi hin _ _
    omega
  | succ n ih =>
    intro s i hsi hin hp hbelow
    rw [List.range'_succ]
    by_cases hs : i = s
    · subst hs
      exact List.find?_cons_of_pos _ hp
    · have hps : p s = false := hbelow s le_rfl (by omega)
      rw [List.find?_cons_of_neg _ (by simp [hps])]
      exact ih (s + 1) i (by omega) (by omega) hp fun j hj1 hj2 => hbelow j (by omega) hj2

theorem yearAt_lt (l : List Char) (i : Nat) (h : yearAt l i = true) : i < l.length := by
  by_contra hle
  push_neg at hle
  have hdrop : l.drop i = [] := List.drop_eq_nil_of_le hle
  unfold yearAt at h
  rw [hdrop] at h
  simp at h

/-- C7 amended: `extractYear` returns the sentinel on an absent or empty field and when
no position of the text matches the word-boundary year pattern `\b(19|20)\d\d\b`, and
otherwise returns the four characters at the LEFTMOST matching position; the documented
examples hold, but a year glued to a following word character (as in 20185) is NOT
extracted, because the regex requires a trailing word boundary. -/
theorem C7_amended_extractYear :
    extractYear none = "N/A" ∧
    extractYear (some "NV") = "N/A" ∧
    extractYear (some "Vintage 2018 Reserve") = "2018" ∧
    extractYear (some "20185") = "N/A" ∧
    (∀ v : String, (∀ i : Nat, yearAt v.toList i = false) → extractYear (some v) = "N/A") ∧
    (∀ (v : String) (i : Nat), yearAt v.toList i = true →
      (∀ j : Nat, j < i → yearAt v.toList j = false) →
      extractYear (some v) = String.mk ((v.toList.drop i).take 4)) := by
  refine ⟨rfl, by decide, by decide, by decide, ?_, ?_⟩
  · intro v hnone
    simp only [extractYear]
    by_cases hv : (v == "") = true
    · rw [if_pos hv]
    · rw [if_neg hv]
      have hfind : (List.range v.toList.length).find? (fun i => yearAt v.toList i) = none := by
        rw [List.find?_eq_none]
        intro x _
        simp only [Bool.not_eq_true]
        exact hnone x
      rw [hfind]
  · intro v i hyear hbelow
    have hlt : i < v.toList.length := yearAt_lt _ _ hyear
    have hv : ¬((v == "") = true) := by
      intro hveq
      have hvv : v = "" := eq_of_beq hveq
      subst hvv
      simp at hlt
    simp only [extractYear]
    rw [if_neg hv]
    have hfind : (List.range v.toList.length).find? (fun i => yearAt v.toList i) = some i := by
      rw [List.range_eq_range']
      exact find?_range'_eq_some _ _ 0 i (Nat.zero_le i) (by omega) hyear
        fun j _ hj => hbelow j hj
    rw [hfind]

/-- C7 as stated is refuted at 20185: the four-digit substring 2018 beginning with 20
occurs in it, yet `extractYear` returns the sentinel. -/
theorem C7_counterexample :
    extractYear (some "20185") = "N/A" ∧ containsSubstr "20185" "2018" = true := by
  decide

/-- Witness for C7 amended at a concrete input: position 3 of `ab 1999` is the leftmost
match, and the year is extracted from there. -/
theorem C7_witness :
    extractYear (some "ab 1999") = String.mk (("ab 1999".toList.drop 3).take 4) :=
  C7_amended_extractYear.2.2.2.2.2 "ab 1999" 3 (by decide) (by decide)

/-! Helper lemmas about the region lists: the lexicographic comparison is total and
transitive, and the de-duplication keeps exactly the distinct elements. -/

theorem charListLe_total : ∀ as bs : List Char, charListLe as bs = true ∨ charListLe bs as = true := by
  intro as
  induction as with
  | nil => intro bs; left; rfl
  | cons a as ih =>
    intro bs
    cases bs with
    | nil => right; rfl
    | cons b bs =>
      simp only [charListLe]
      by_cases hab : a.toNat = b.toNat
      · rw [if_pos hab, if_pos hab.symm]
        exact ih bs
      · have hba : ¬(b.toNat = a.toNat) := fun h => hab h.symm
        rw [if_neg hab, if_neg hba]
        rcases Nat.lt_or_ge a.toNat b.toNat with h | h
        · left; exact decide_eq_true h
        · right
          exact decide_eq_true (by omega)

theorem charListLe_trans :
    ∀ as bs cs : List Char, charListLe as bs = true → charListLe bs cs = true →
      charListLe as cs = true := by
  intro as
  induction as with
  | nil => intro bs cs _ _; rfl
  | cons a as ih =>
    intro bs cs hab hbc
    cases bs with
    | nil => exact absurd hab (by simp [charListLe])
    | cons b bs =>
      cases cs with
      | nil => exact absurd hbc (by simp [charListLe])
      | cons c cs =>
        simp only [charListLe] at hab hbc ⊢
        by_cases h1 : a.toNat = b.toNat
        · rw [if_pos h1] at hab
          by_cases h2 : b.toNat = c.toNat
          · rw [if_pos h2] at hbc
            rw [if_pos (h1.trans h2)]
            exact ih bs cs hab hbc
          · rw [if_neg h2] at hbc
            have hbc2 : b.toNat < c.toNat := of_decide_eq_true hbc
            rw [if_neg (show ¬(a.toNat = c.toNat) by omega)]
            exact decide_eq_true (by omega)
        · rw [if_neg h1] at hab
          have hab2 : a.toNat < b.toNat := of_decide_eq_true hab
          by_cases h2 : b.toNat = c.toNat
          · rw [if_neg (show ¬(a.toNat = c.toNat) by omega)]
            exact decide_eq_true (by omega)
          · rw [if_neg h2] at hbc
            have hbc2 : b.toNat < c.toNat := of_decide_eq_true hbc
            rw [if_neg (show ¬(a.toNat = c.toNat) by omega)]
            exact decide_eq_true (by omega)

theorem strLe_total : ∀ a b : String, strLe a b = true ∨ strLe b a = true := by
  intro a b
  exact charListLe_total a.toList b.toList

theorem strLe_trans :
    ∀ a b c : String, strLe a b = true → strLe b c = true → strLe a c = true := by
  intro a b c
  exact charListLe_trans a.toList b.toList c.toList

theorem mem_dedupFirstAux :
    ∀ (l seen : List String) (x : String),
      x ∈ dedupFirstAux l seen ↔ (x ∈ l ∧ x ∉ seen) := by
  intro l
  induction l with
  | nil =>
    intro seen x
    simp [dedupFirstAux]
  | cons a l ih =>
    intro seen x
    simp only [dedupFirstAux]
    by_cases hc : a ∈ seen
    · rw [if_pos (by simpa using hc), ih]
      constructor
      · rintro ⟨hxl, hxs⟩
        exact ⟨List.mem_cons_of_mem _ hxl, hxs⟩
      · rintro ⟨hxl, hxs⟩
        rcases List.mem_cons.mp hxl with rfl | hxl
        · exact absurd hc hxs
        · exact ⟨hxl, hxs⟩
    · rw [if_neg (by simpa using hc)]
      constructor
      · intro hx
        rcases List.mem_cons.mp hx with rfl | hx
        · exact ⟨List.mem_cons_self _ _, hc⟩
        · rw [ih] at hx
          obtain ⟨hxl, hxs⟩ := hx
          exact ⟨List.mem_cons_of_mem _ hxl,
            fun hx2 => hxs (List.mem_cons_of_mem _ hx2)⟩
      · rintro ⟨hxl, hxs⟩
        rcases List.mem_cons.mp hxl with rfl | hxl
        · exact List.mem_cons_self _ _
        · by_cases hxa : x = a
          · subst hxa
            exact List.mem_cons_self _ _
          · refine List.mem_cons_of_mem _ ?_
            rw [ih]
            refine ⟨hxl, fun h => ?_⟩
            rcases List.mem_cons.mp h with h | h
            · exact hxa h
            · exact hxs h

theorem nodup_dedupFirstAux :
    ∀ (l seen : List String), (dedupFirstAux l seen).Nodup := by
  intro l
  induction l with
  | nil => intro seen; simp [dedupFirstAux]
  | cons a l ih =>
    intro seen
    simp only [dedupFirstAux]
    by_cases hc : a ∈ seen
    · rw [if_pos (by simpa using hc)]
      exact ih seen
    · rw [if_neg (by simpa using hc)]
      refine List.nodup_cons.mpr ⟨?_, ih (a :: seen)⟩
      intro hmem
      rw [mem_dedupFirstAux] at hmem
      exact hmem.2 (List.mem_cons_self _ _)

/-- C9 amended: the list built by the REGIONS PAGE consists exactly of the distinct
normalized region values of the (family-restricted) wines with a non-blank region field,
with no duplicates, sorted lexicographically ascending; the REGION FILTER DROPDOWN,
however, lists the distinct RAW region strings, so two spelling variants that normalize
to the same canonical name appear there as separate entries. -/
theorem C9_amended_region_lists :
    (∀ (wines : List Wine) (ftype : Option String) (x : String),
      x ∈ regionsPageList wines ftype ↔
        ∃ w, w ∈ winesForType wines ftype ∧
          (truthy w.region && !(jsTrim (w.region.getD "") == "")) = true ∧
          normalizeRegionName (w.region.getD "") = x) ∧
    (∀ (wines : List Wine) (ftype : Option String), (regionsPageList wines ftype).Nodup) ∧
    (∀ (wines : List Wine) (ftype : Option String),
      (regionsPageList wines ftype).Sorted (fun a b => strLe a b = true)) ∧
    (∀ (wines : List Wine) (x : String),
      x ∈ showRegionFilterRegions wines ↔
        ∃ w, w ∈ wines ∧
          (truthy w.region && !(jsTrim (w.region.getD "") == "")) = true ∧
          w.region.getD "" = x) := by
  refine ⟨?_, ?_, ?_, ?_⟩
  · intro wines ftype x
    unfold regionsPageList dedupFirst
    rw [List.Perm.mem_iff (List.perm_insertionSort _ _)]
    rw [mem_dedupFirstAux]
    simp only [List.not_mem_nil, not_false_iff, and_true, List.mem_map, List.mem_filter]
    constructor
    · rintro ⟨w, ⟨hw, hcond⟩, hnorm⟩
      exact ⟨w, hw, hcond, hnorm⟩
    · rintro ⟨w, hw, hcond, hnorm⟩
      exact ⟨w, ⟨hw, hcond⟩, hnorm⟩
  · intro wines ftype
    unfold regionsPageList dedupFirst
    exact (List.perm_insertionSort _ _).nodup_iff.mpr (nodup_dedupFirstAux _ _)
  · intro wines ftype
    unfold regionsPageList
    letI : IsTotal String (fun a b => strLe a b = true) := ⟨strLe_total⟩
    letI : IsTrans String (fun a b => strLe a b = true) := ⟨strLe_trans⟩
    exact List.sorted_insertionSort _ _
  · intro wines x
    unfold showRegionFilterRegions dedupFirst
    rw [List.Perm.mem_iff (List.perm_insertionSort _ _)]
    rw [mem_dedupFirstAux]
    simp only [List.not_mem_nil, not_false_iff, and_true, List.mem_map, List.mem_filter]
    constructor
    · rintro ⟨w, ⟨hw, hcond⟩, hraw⟩
      exact ⟨w, hw, hcond, hraw⟩
    · rintro ⟨w, hw, hcond, hraw⟩
      exact ⟨w, ⟨hw, hcond⟩, hraw⟩

/-- A ValidWine with the hyphenated canonical FRIULI spelling: its raw region is in the
accepted raw-region list, so the validity filter retains it. -/
def friuliCanonicalWine : Wine :=
  { wine_name := some "Colli Orientali", wine_producer := some "Livio Felluga",
    wine_type := some "ROSSO", region := some "FRIULI-VENEZIA GIULIA",
    wine_price := some "85" }

/-- C9 as stated is refuted on a set of two VALID wines (both retained by the validity
filter, since both raw spellings are in the accepted raw-region list): the region filter
dropdown lists the raw spellings FRIULI and FRIULI-VENEZIA GIULIA as separate entries
even though they normalize to the same canonical region, so the displayed list is not
the duplicate-free list of distinct canonical values. -/
theorem C9_counterexample :
    validityFilter [friuliRawWine, friuliCanonicalWine] =
      [friuliRawWine, friuliCanonicalWine] ∧
    showRegionFilterRegions [friuliRawWine, friuliCanonicalWine] =
      ["FRIULI", "FRIULI-VENEZIA GIULIA"] ∧
    normalizeRegionName "FRIULI" = normalizeRegionName "FRIULI-VENEZIA GIULIA" ∧
    ("FRIULI" : String) ≠ "FRIULI-VENEZIA GIULIA" := by
  decide

end WineList
